import Mathlib

/-!
Verification of the Tyk gateway's reload, policy-merge, control-API guard,
response-plugin and heartbeat logic, shallowly embedded from
`gateway/server.go`, `gateway/dashboard_register.go`,
`gateway/res_handler_go_plugin.go` and the policy loader.
-/

namespace Tyk

/-! ## HTTP requests and control-API responses -/

/-- An HTTP request as far as the embedded handlers inspect it:
URL path, method, headers and body (`server.go`, `net/http.Request`). -/
structure Request where
  path : String
  method : String
  headers : List (String × String)
  body : String
deriving DecidableEq, Repr

/-- `r.Header.Get(k)`: first value for the header key, or `""` when absent. -/
def headerGet (hs : List (String × String)) (k : String) : String :=
  match hs with
  | [] => ""
  | (k', v) :: t => if k' = k then v else headerGet t k

/-- The JSON error object written by the control API
(`apiStatusMessage` with status `"error"`). -/
structure ApiStatusMessage where
  status : String
  message : String
deriving DecidableEq, Repr

/-- Modelled from the spec: `apiError` (defined in `gateway/api.go`, absent
from src/) builds the JSON error body `{"status": "error", "message": msg}`
used by control-plane endpoints. -/
def apiError (msg : String) : ApiStatusMessage := { status := "error", message := msg }

/-- A response produced on the control-API path: status code plus the JSON
body, when one was written by `doJSONWrite`. -/
structure ControlResponse where
  code : Nat
  jsonBody : Option ApiStatusMessage
deriving DecidableEq, Repr

/-- Modelled from the spec: `doJSONWrite` (defined in `gateway/api.go`, absent
from src/) writes the given status code and JSON-encodes the object as the
response body. -/
def doJSONWrite (code : Nat) (obj : ApiStatusMessage) : ControlResponse :=
  { code := code, jsonBody := some obj }

/-- The header key checked by `checkIsAPIOwner` (`header.XTykAuthorization`). -/
def XTykAuthorization : String := "X-Tyk-Authorization"

/-- `checkIsAPIOwner` (`server.go`): compares the `X-Tyk-Authorization` header
against the shared secret; on mismatch writes a 403 JSON error and never calls
the wrapped handler. The returned `Bool` records whether `next` was invoked. -/
def checkIsAPIOwner (secret : String) (next : Request → ControlResponse) (r : Request) :
    ControlResponse × Bool :=
  let tykAuthKey := headerGet r.headers XTykAuthorization
  if tykAuthKey ≠ secret then
    (doJSONWrite 403 (apiError "Attempted administrative access with invalid or missing key!"),
     false)
  else
    (next r, true)

/-! ## stripSlashes (`server.go`) -/

/-- `strings.TrimRight(path, "/")`: remove every trailing `'/'` character. -/
def trimRightSlashes (s : String) : String :=
  ⟨(s.data.reverse.dropWhile (fun c => c = '/')).reverse⟩

/-- `stripSlashes` (`server.go`): wraps a handler so that the inner handler
sees the URL path with trailing slashes removed; the rest of the request is
copied unchanged (`r2 := *r; r2.URL.Path = trim`). -/
def stripSlashes {α : Type} (next : Request → α) (r : Request) : α :=
  if trimRightSlashes r.path ≠ r.path then
    next { r with path := trimRightSlashes r.path }
  else
    next r

/-! ## Go-plugin response middleware (`res_handler_go_plugin.go`) -/

/-- Behaviour of one invocation of the loaded Go-plugin response handler:
either it runs to completion (recording whether it wrote a response and which
status code), or it panics. -/
inductive PluginOutcome where
  | normal (responseSent : Bool) (statusCodeSent : Nat)
  | panics (msg : String)
deriving DecidableEq, Repr

/-- Observable result of `HandleGoPluginResponse`: status code written to the
response writer by the wrapper itself (if any), the error value returned to
the response chain, and whether a panic was recovered. -/
structure GoPluginResult where
  writtenStatus : Option Nat
  errReturned : Option String
  recovered : Bool
deriving DecidableEq, Repr

/-- The body of `HandleGoPluginResponse` without its deferred recover.
An `Except.error` models a panic escaping the body (from `h.ResHandler`). -/
def goPluginBody (outcome : PluginOutcome) : Except String GoPluginResult :=
  match outcome with
  | PluginOutcome.panics msg => Except.error msg
  | PluginOutcome.normal sent code =>
    if sent ∧ 400 ≤ code then
      Except.ok { writtenStatus := some code,
                  errReturned := some "plugin function sent error response code",
                  recovered := false }
    else
      Except.ok { writtenStatus := none, errReturned := none, recovered := false }

/-- The `defer func() { if e := recover(); e != nil { w.WriteHeader(500); ... } }()`
wrapper: a panic escaping the body is caught, a 500 status is written, and the
function returns the zero error value. -/
def recoverWrapper (body : Except String GoPluginResult) : GoPluginResult :=
  match body with
  | Except.ok r => r
  | Except.error _ => { writtenStatus := some 500, errReturned := none, recovered := true }

/-- `HandleGoPluginResponse` (`res_handler_go_plugin.go`): run the plugin
handler under the recover wrapper. Returning a `GoPluginResult` (not an
exception) reflects that no panic propagates out of the middleware. -/
def HandleGoPluginResponse (outcome : PluginOutcome) : GoPluginResult :=
  recoverWrapper (goPluginBody outcome)

/-! ## Theorems: C7, C8, C10 -/

/-- C7: for every request to a control-plane endpoint whose
`X-Tyk-Authorization` header does not equal the configured shared secret,
the gateway responds 403 with a JSON error body and the wrapped endpoint
handler is never invoked. -/
theorem checkIsAPIOwner_rejects (secret : String) (next : Request → ControlResponse)
    (r : Request) (h : headerGet r.headers XTykAuthorization ≠ secret) :
    checkIsAPIOwner secret next r =
      (⟨403, some ⟨"error", "Attempted administrative access with invalid or missing key!"⟩⟩,
       false) := by
  simp [checkIsAPIOwner, doJSONWrite, apiError, h]

/-- Witness for C7: a concrete request with a wrong secret is rejected with
403 and the inner handler is not called. -/
theorem checkIsAPIOwner_rejects_wit :
    checkIsAPIOwner "the-secret" (fun _ => ⟨200, none⟩)
      ⟨"/tyk/apis", "GET", [("X-Tyk-Authorization", "wrong")], ""⟩ =
      (⟨403, some ⟨"error", "Attempted administrative access with invalid or missing key!"⟩⟩,
       false) :=
  checkIsAPIOwner_rejects "the-secret" (fun _ => ⟨200, none⟩)
    ⟨"/tyk/apis", "GET", [("X-Tyk-Authorization", "wrong")], ""⟩ (by decide)

/-- C8: every response-slot Go-plugin handler that panics during execution is
recovered inside the middleware, a 500 status is written to the client, no
error escapes (the function returns its zero error value), and the gateway
does not crash: the middleware returns normally. -/
theorem handleGoPluginResponse_panic_recovered (msg : String) :
    HandleGoPluginResponse (PluginOutcome.panics msg) =
      { writtenStatus := some 500, errReturned := none, recovered := true } := rfl

/-- Witness for C8: a concrete panicking handler yields a recovered 500. -/
theorem handleGoPluginResponse_panic_recovered_wit :
    HandleGoPluginResponse (PluginOutcome.panics "nil pointer dereference") =
      { writtenStatus := some 500, errReturned := none, recovered := true } :=
  handleGoPluginResponse_panic_recovered "nil pointer dereference"

/-- Dropping a matching head-run twice is the same as dropping it once. -/
theorem dropWhile_self_idem {α : Type} (p : α → Bool) :
    ∀ l : List α, (l.dropWhile p).dropWhile p = l.dropWhile p := by
  intro l
  induction l with
  | nil => rfl
  | cons a t ih =>
    by_cases h : p a
    · simp [List.dropWhile, h, ih]
    · simp [List.dropWhile, h]

/-- The head of `dropWhile p l`, when present, does not satisfy `p`. -/
theorem head_dropWhile_not {α : Type} (p : α → Bool) :
    ∀ (l : List α) (c : α), (l.dropWhile p).head? = some c → p c = false := by
  intro l
  induction l with
  | nil => intro c h; simp [List.dropWhile] at h
  | cons a t ih =>
    intro c h
    by_cases hp : p a
    · exact ih c (by simpa [List.dropWhile, hp] using h)
    · simp [List.dropWhile, hp] at h
      subst h
      simpa using hp

/-- C10: the slash-stripping wrapper hands the inner handler the original
request with every trailing `'/'` removed from the path and every other part
unchanged; the removed suffix is exactly a run of slashes, the trimmed path
does not end in `'/'`, and the transformation is idempotent. -/
theorem stripSlashes_trims_idempotent {α : Type} (next : Request → α) (r : Request) :
    stripSlashes next r =
      next { path := trimRightSlashes r.path, method := r.method,
             headers := r.headers, body := r.body } ∧
    (∃ k, r.path.data = (trimRightSlashes r.path).data ++ List.replicate k '/') ∧
    (∀ c, (trimRightSlashes r.path).data.getLast? = some c → c ≠ '/') ∧
    trimRightSlashes (trimRightSlashes r.path) = trimRightSlashes r.path := by
  refine ⟨?_, ?_, ?_, ?_⟩
  · show (if trimRightSlashes r.path ≠ r.path then
        next { r with path := trimRightSlashes r.path } else next r) = _
    by_cases h : trimRightSlashes r.path = r.path
    · rw [if_neg (not_not_intro h), h]
    · rw [if_pos h]
  · refine ⟨(r.path.data.reverse.takeWhile (fun c => c = '/')).length, ?_⟩
    have hsplit := List.takeWhile_append_dropWhile (p := fun c => c = '/')
      (l := r.path.data.reverse)
    have hrep : (r.path.data.reverse.takeWhile (fun c => c = '/')).reverse =
        List.replicate (r.path.data.reverse.takeWhile (fun c => c = '/')).length '/' := by
      rw [List.eq_replicate_iff]
      refine ⟨by simp, ?_⟩
      intro b hb
      have hb' := List.mem_takeWhile_imp (List.mem_reverse.mp hb)
      simpa using hb'
    calc r.path.data = r.path.data.reverse.reverse := by simp
    _ = (r.path.data.reverse.takeWhile (fun c => c = '/') ++
          r.path.data.reverse.dropWhile (fun c => c = '/')).reverse := by rw [hsplit]
    _ = (r.path.data.reverse.dropWhile (fun c => c = '/')).reverse ++
          (r.path.data.reverse.takeWhile (fun c => c = '/')).reverse := by
          rw [List.reverse_append]
    _ = (trimRightSlashes r.path).data ++
          List.replicate (r.path.data.reverse.takeWhile (fun c => c = '/')).length '/' := by
          rw [hrep]; rfl
  · intro c hc
    have hh : (r.path.data.reverse.dropWhile (fun c => c = '/')).head? = some c := by
      have : (trimRightSlashes r.path).data =
          (r.path.data.reverse.dropWhile (fun c => c = '/')).reverse := rfl
      rw [this, List.getLast?_reverse] at hc
      exact hc
    have := head_dropWhile_not (fun c => c = '/') _ c hh
    simpa using this
  · show (⟨((trimRightSlashes r.path).data.reverse.dropWhile (fun c => c = '/')).reverse⟩ :
      String) = trimRightSlashes r.path
    have hdata : (trimRightSlashes r.path).data =
        (r.path.data.reverse.dropWhile (fun c => c = '/')).reverse := rfl
    rw [hdata, List.reverse_reverse, dropWhile_self_idem]
    rfl

/-- Witness for C10: stripping `"/tyk/apis//"` yields `"/tyk/apis"` for the
inner handler, and stripping again changes nothing. -/
theorem stripSlashes_trims_idempotent_wit :
    stripSlashes (fun q => q.path)
      { path := "/tyk/apis//", method := "GET", headers := [], body := "" } = "/tyk/apis" ∧
    trimRightSlashes (trimRightSlashes "/tyk/apis//") = trimRightSlashes "/tyk/apis//" := by
  have h := stripSlashes_trims_idempotent (fun q => q.path)
    { path := "/tyk/apis//", method := "GET", headers := [], body := "" }
  refine ⟨?_, h.2.2.2⟩
  rw [h.1]
  decide

/-! ## Dashboard policy merge (`LoadPoliciesFromDashboard`) -/

/-- One policy entry as fetched from the dashboard (`DBPolicy`): the Mongo id
hex (`p.MID.Hex()`), the explicit id (`p.ID`), the org id, and `payload`
standing for the remaining policy fields carried by `ToRegularPolicy`. -/
structure DBPolicy where
  mid : String
  id : String
  orgID : String
  payload : Nat
deriving DecidableEq, Repr

/-- The map key chosen for a fetched policy:
`id := p.MID.Hex(); if allowExplicit && p.ID != "" { id = p.ID }`. -/
def effectiveID (allowExplicit : Bool) (p : DBPolicy) : String :=
  if allowExplicit ∧ p.id ≠ "" then p.id else p.mid

/-- Lookup in a policy map modelled as an association list of unique keys. -/
def lookupA (k : String) : List (String × DBPolicy) → Option DBPolicy
  | [] => none
  | (k', v) :: t => if k' = k then some v else lookupA k t

/-- The merge loop of `LoadPoliciesFromDashboard`: for each fetched policy,
compute its effective id, set `p.ID`, and insert it into the map unless the
id is already present, in which case the entry is skipped and a warning
(`"Skipping policy, new item has a duplicate ID!"`) is recorded for that id. -/
def mergeDashAux (allowExplicit : Bool) :
    List (String × DBPolicy) → List String → List DBPolicy →
    List (String × DBPolicy) × List String
  | m, w, [] => (m, w)
  | m, w, p :: rest =>
    if (lookupA (effectiveID allowExplicit p) m).isSome then
      mergeDashAux allowExplicit m (w ++ [effectiveID allowExplicit p]) rest
    else
      mergeDashAux allowExplicit
        (m ++ [(effectiveID allowExplicit p, { p with id := effectiveID allowExplicit p })])
        w rest

/-- `LoadPoliciesFromDashboard` (policy loader): the policy-list merge applied
to the decoded `Message` array, returning the policy map and the ids warned
about as duplicates. Request construction, nonce handling and error paths
leave the map untouched and are not needed here. -/
def LoadPoliciesFromDashboard (allowExplicit : Bool) (msgs : List DBPolicy) :
    List (String × DBPolicy) × List String :=
  mergeDashAux allowExplicit [] [] msgs

/-- Left-biased choice on options (`x` if present, else `y`). -/
def optOr {α : Type} : Option α → Option α → Option α
  | some a, _ => some a
  | none, b => b

theorem optOr_none_right {α : Type} (x : Option α) : optOr x none = x := by
  cases x <;> rfl

theorem optOr_of_isSome {α : Type} {x : Option α} (h : x.isSome = true) (y : Option α) :
    optOr x y = x := by
  cases x
  · simp at h
  · rfl

theorem isSome_false_eq_none {α : Type} {x : Option α} (h : x.isSome = false) : x = none := by
  cases x
  · rfl
  · simp at h

theorem lookupA_append (k : String) (m m' : List (String × DBPolicy)) :
    lookupA k (m ++ m') = optOr (lookupA k m) (lookupA k m') := by
  induction m with
  | nil => rfl
  | cons a t ih =>
    obtain ⟨k', v⟩ := a
    by_cases h : k' = k
    · simp [lookupA, h, optOr]
    · simp [lookupA, h, ih]

/-- The merged map resolves an id to the first fetched policy whose effective
id matches, after any bindings already in the accumulator. -/
theorem mergeDashAux_lookup (ae : Bool) (pid : String) :
    ∀ (msgs : List DBPolicy) (m : List (String × DBPolicy)) (w : List String),
    lookupA pid (mergeDashAux ae m w msgs).1 =
      optOr (lookupA pid m)
        ((msgs.find? (fun p => effectiveID ae p = pid)).map (fun p => { p with id := pid })) := by
  intro msgs
  induction msgs with
  | nil =>
    intro m w
    simp [mergeDashAux, optOr_none_right]
  | cons p rest ih =>
    intro m w
    by_cases hm : (lookupA (effectiveID ae p) m).isSome = true
    · rw [mergeDashAux, if_pos hm, ih]
      by_cases hip : effectiveID ae p = pid
      · rw [List.find?_cons_of_pos _ (by simpa using hip)]
        rw [hip] at hm
        rw [optOr_of_isSome hm, optOr_of_isSome hm]
      · rw [List.find?_cons_of_neg _ (by simpa using hip)]
    · rw [mergeDashAux, if_neg hm, ih, lookupA_append]
      have hmnone : lookupA (effectiveID ae p) m = none :=
        isSome_false_eq_none (by simpa using hm)
      by_cases hip : effectiveID ae p = pid
      · rw [List.find?_cons_of_pos _ (by simpa using hip)]
        rw [hip] at hmnone
        simp [lookupA, hip, hmnone, optOr]
      · rw [List.find?_cons_of_neg _ (by simpa using hip)]
        simp [lookupA, hip, optOr_none_right]

/-- Every fetched policy is either inserted into the map or warned about. -/
theorem mergeDashAux_length (ae : Bool) :
    ∀ (msgs : List DBPolicy) (m : List (String × DBPolicy)) (w : List String),
    (mergeDashAux ae m w msgs).1.length + (mergeDashAux ae m w msgs).2.length =
      m.length + w.length + msgs.length := by
  intro msgs
  induction msgs with
  | nil =>
    intro m w
    simp [mergeDashAux]
  | cons p rest ih =>
    intro m w
    by_cases hm : (lookupA (effectiveID ae p) m).isSome = true
    · rw [mergeDashAux, if_pos hm]
      have := ih m (w ++ [effectiveID ae p])
      simp at this ⊢
      omega
    · rw [mergeDashAux, if_neg hm]
      have := ih (m ++ [(effectiveID ae p, { p with id := effectiveID ae p })]) w
      simp at this ⊢
      omega

def dupA : DBPolicy := { mid := "5f0c2a", id := "pol-dup", orgID := "org1", payload := 1 }

def dupB : DBPolicy := { mid := "5f0c2b", id := "pol-dup", orgID := "org1", payload := 2 }

/-- C2 (counterexample): two dashboard policies with the same id `"pol-dup"`
but different contents; the merged map keeps the FIRST-seen entry, not the
last-seen one as the claim states (the duplicate is skipped with a warning). -/
theorem loadPoliciesFromDashboard_lastWins_cex :
    lookupA "pol-dup" (LoadPoliciesFromDashboard true [dupA, dupB]).1 =
      some { mid := "5f0c2a", id := "pol-dup", orgID := "org1", payload := 1 } ∧
    lookupA "pol-dup" (LoadPoliciesFromDashboard true [dupA, dupB]).1 ≠
      some { mid := "5f0c2b", id := "pol-dup", orgID := "org1", payload := 2 } ∧
    (LoadPoliciesFromDashboard true [dupA, dupB]).2 = ["pol-dup"] := by decide

/-- C2 (amended): when policies fetched from the dashboard contain two entries
with the same effective id, the merged policy map keeps the FIRST-seen entry
for that id (first-wins); each later duplicate is skipped and a warning is
logged for its id. The map resolves every id to the first fetched policy with
that effective id, and every fetched entry is either kept or warned about. -/
theorem loadPoliciesFromDashboard_firstWins (ae : Bool) (msgs : List DBPolicy) (pid : String) :
    lookupA pid (LoadPoliciesFromDashboard ae msgs).1 =
      ((msgs.find? (fun p => effectiveID ae p = pid)).map (fun p => { p with id := pid })) ∧
    (LoadPoliciesFromDashboard ae msgs).1.length + (LoadPoliciesFromDashboard ae msgs).2.length
      = msgs.length := by
  constructor
  · rw [LoadPoliciesFromDashboard, mergeDashAux_lookup]
    rfl
  · rw [LoadPoliciesFromDashboard]
    have := mergeDashAux_length ae msgs [] []
    simpa using this

/-! ## API sync, policy sync and the reload coordinator (`server.go`) -/

/-- An API definition as the reload path inspects it (`APISpec`): id, name,
and the auth/session provider fields that `syncAPISpecs` may override. -/
structure APISpec where
  apiID : String
  name : String
  authProvider : String
  sessionProvider : String
deriving DecidableEq, Repr

/-- The configuration fields read by the reload path
(`config.Config`): `ResourceSync.RetryAttempts`, `ResourceSync.Interval`,
`SlaveOptions.UseRPC`, the `AuthOverride` block and the admin `Secret`. -/
structure Config where
  retryAttempts : Nat
  interval : Nat
  useRPC : Bool
  forceAuthProvider : Bool
  authProvider : String
  forceSessionProvider : Bool
  sessionProvider : String
  secret : String
deriving DecidableEq, Repr

/-- The gateway registries touched by a reload: `gw.apiSpecs` (the loaded API
set written by `syncAPISpecs`), `gw.apisByID` (the serving API registry built
by `loadGlobalApps`), `gw.policiesByID`, and `gw.performedSuccessfulReload`. -/
structure GwState where
  apiSpecs : List APISpec
  apisByID : List (String × APISpec)
  policiesByID : List (String × DBPolicy)
  performedSuccessfulReload : Bool
deriving DecidableEq, Repr

/-- The `AuthOverride.ForceAuthProvider` / `ForceSessionProvider` rewrites
applied by `syncAPISpecs` before validation. -/
def applyProviderOverrides (conf : Config) (s : List APISpec) : List APISpec :=
  let s1 := if conf.forceAuthProvider then
      s.map (fun v => { v with authProvider := conf.authProvider }) else s
  if conf.forceSessionProvider then
    s1.map (fun v => { v with sessionProvider := conf.sessionProvider })
  else s1

/-- `v.Validate(...) == nil`: the spec passed validation. The validator body
lives outside the reload path and is abstracted as a parameter. -/
def specValid (validate : APISpec → Option String) (v : APISpec) : Bool :=
  (validate v).isNone

/-- `syncAPISpecs` (`server.go`) for a completed fetch: apply the provider
overrides, drop every definition that fails validation (logging
`"Skipping loading spec because it failed validation"` for each), store the
remaining set in `gw.apiSpecs` and return its size; a fetch error is returned
unchanged with the state untouched. Returns (result, state, log lines). -/
def syncAPISpecs (conf : Config) (validate : APISpec → Option String)
    (fetched : Except String (List APISpec)) (st : GwState) :
    Except String Nat × GwState × List String :=
  match fetched with
  | Except.error e => (Except.error e, st, ["failed to load API specs: " ++ e])
  | Except.ok s =>
    (Except.ok ((applyProviderOverrides conf s).filter (specValid validate)).length,
     { st with apiSpecs := (applyProviderOverrides conf s).filter (specValid validate) },
     ((applyProviderOverrides conf s).filter (fun v => !(specValid validate v))).map
       (fun v => "Skipping loading spec because it failed validation: " ++ v.name))

/-- `syncPolicies` (`server.go`) around its fetch: on error the error is
returned and `gw.policiesByID` keeps its previous value (the assignment is
only reached when `err == nil`); on success the fetched map is installed and
its size returned. -/
def syncPolicies (fetched : Except String (List (String × DBPolicy))) (st : GwState) :
    Except String Nat × GwState :=
  match fetched with
  | Except.error e => (Except.error e, st)
  | Except.ok pols => (Except.ok pols.length, { st with policiesByID := pols })

/-- Observable events of one `syncResourcesWithReload` run: a call to the
sync function (attempt number, whether emergency mode was active), a backoff
sleep of the configured interval, and the switch into emergency mode. -/
inductive SyncEvent where
  | attempt (i : Nat) (emergency : Bool)
  | sleep (seconds : Nat)
  | enableEmergencyMode
deriving DecidableEq, Repr

/-- The retry loop of `syncResourcesWithReload`
(`for i := 1; i <= conf.ResourceSync.RetryAttempts+1; i++`): call the sync
function; return on success; otherwise sleep `Interval` seconds and retry,
and on the final attempt, when `SlaveOptions.UseRPC` is set, enable emergency
mode and call the sync function exactly once more. `F` is the sync function,
taking the emergency flag and the attempt index; state threads through. -/
def syncLoop (useRPC : Bool) (interval : Nat)
    (F : Bool → Nat → GwState → Except String Nat × GwState) :
    Nat → Nat → GwState → Except String Nat × GwState × List SyncEvent
  | _, 0, st => (Except.error "no sync attempts configured", st, [])
  | i, remaining + 1, st =>
    match F false i st with
    | (Except.ok c, st') => (Except.ok c, st', [SyncEvent.attempt i false])
    | (Except.error e, st') =>
      if remaining = 0 then
        if useRPC then
          match F true (i + 1) st' with
          | (Except.ok c, st'') =>
            (Except.ok c, st'',
             [SyncEvent.attempt i false, SyncEvent.enableEmergencyMode,
              SyncEvent.attempt (i + 1) true])
          | (Except.error e2, st'') =>
            (Except.error ("syncing failed: " ++ e2), st'',
             [SyncEvent.attempt i false, SyncEvent.enableEmergencyMode,
              SyncEvent.attempt (i + 1) true])
        else
          (Except.error ("syncing failed: " ++ e), st', [SyncEvent.attempt i false])
      else
        match syncLoop useRPC interval F (i + 1) remaining st' with
        | (res, st'', evs) =>
          (res, st'', SyncEvent.attempt i false :: SyncEvent.sleep interval :: evs)

/-- `syncResourcesWithReload` (`server.go`): reject unknown resource names
(`ErrSyncResourceNotKnown`), then run the retry loop starting at attempt 1
with `RetryAttempts + 1` attempts available. -/
def syncResourcesWithReload (resource : String) (conf : Config)
    (F : Bool → Nat → GwState → Except String Nat × GwState) (st : GwState) :
    Except String Nat × GwState × List SyncEvent :=
  if resource ≠ "apis" ∧ resource ≠ "policies" then
    (Except.error "unknown resource to sync", st, [])
  else
    syncLoop conf.useRPC conf.interval F 1 (conf.retryAttempts + 1) st

/-- The external fetch outcomes a reload can observe, per (emergency flag,
attempt index): the policy source and the API source, plus the abstract
validator used by `syncAPISpecs`. -/
structure ReloadEnv where
  polFetch : Bool → Nat → Except String (List (String × DBPolicy))
  apiFetch : Bool → Nat → Except String (List APISpec)
  validate : APISpec → Option String

/-- `gw.syncPolicies` as the sync function handed to the retry loop. -/
def syncPoliciesCall (env : ReloadEnv) (em : Bool) (i : Nat) (st : GwState) :
    Except String Nat × GwState :=
  syncPolicies (env.polFetch em i) st

/-- `gw.syncAPISpecs` as the sync function handed to the retry loop
(the log lines are dropped by the loop). -/
def syncAPISpecsCall (conf : Config) (env : ReloadEnv) (em : Bool) (i : Nat) (st : GwState) :
    Except String Nat × GwState :=
  ((syncAPISpecs conf env.validate (env.apiFetch em i) st).1,
   (syncAPISpecs conf env.validate (env.apiFetch em i) st).2.1)

/-- Modelled from the spec: `loadGlobalApps` (defined in
`gateway/api_loader.go`, absent from src/) performs "a full rebuild of the
API snapshot and router, then an atomic mux install" from the loaded API set
`gw.apiSpecs`, keying the registry by API id. -/
def loadGlobalApps (st : GwState) : GwState :=
  { st with apisByID := st.apiSpecs.map (fun s => (s.apiID, s)) }

/-- What a `DoReload` run did: failed during one of the syncs, abandoned the
reload (`"No API Definitions found, not reloading"`), or rebuilt the global
apps and reinstalled the mux via `loadGlobalApps`. -/
inductive ReloadEvent where
  | policySyncFailed
  | apiSyncFailed
  | abandonedNoAPIs
  | rebuiltGlobalApps
deriving DecidableEq, Repr

/-- Whether a sync call failed. -/
def isErr (r : Except String Nat) : Bool :=
  match r with
  | Except.error _ => true
  | Except.ok _ => false

/-- The count returned by a successful sync (`count` in `DoReload`). -/
def exceptCount (r : Except String Nat) : Nat :=
  match r with
  | Except.ok c => c
  | Except.error _ => 0

/-- `DoReload` (`server.go`): sync policies (returning on failure), sync API
specs (returning on failure), abandon the reload when the sync reported zero
APIs and `gw.apisByID` is also empty, and otherwise rebuild the global apps.
The JSVM re-init does not touch the registries and is elided. -/
def DoReload (conf : Config) (env : ReloadEnv) (st : GwState) : GwState × List ReloadEvent :=
  let polRes := syncResourcesWithReload "policies" conf (syncPoliciesCall env) st
  if isErr polRes.1 then
    (polRes.2.1, [ReloadEvent.policySyncFailed])
  else
    let apiRes := syncResourcesWithReload "apis" conf (syncAPISpecsCall conf env) polRes.2.1
    if isErr apiRes.1 then
      (apiRes.2.1, [ReloadEvent.apiSyncFailed])
    else if exceptCount apiRes.1 = 0 ∧ apiRes.2.1.apisByID.length = 0 then
      ({ apiRes.2.1 with performedSuccessfulReload := true }, [ReloadEvent.abandonedNoAPIs])
    else
      ({ loadGlobalApps apiRes.2.1 with performedSuccessfulReload := true },
       [ReloadEvent.rebuiltGlobalApps])

/-! ## RPC policy loading (`LoadPoliciesFromRPC`) -/

/-- Insert with overwrite, as Go's `policies[id] = p` behaves. -/
def insertAssoc (m : List (String × DBPolicy)) (k : String) (v : DBPolicy) :
    List (String × DBPolicy) :=
  match m with
  | [] => [(k, v)]
  | (k', v') :: t => if k' = k then (k, v) :: t else (k', v') :: insertAssoc t k v

/-- The merge loop of `parsePoliciesFromRPC`: key each policy by its
effective id and insert it, last-wins, with no warning. -/
def parsePoliciesFromRPCList (allowExplicit : Bool) (l : List DBPolicy) :
    List (String × DBPolicy) :=
  l.foldl (fun m p =>
    insertAssoc m (effectiveID allowExplicit p)
      { p with id := effectiveID allowExplicit p }) []

/-- The external inputs of one `LoadPoliciesFromRPC` call:
`rpc.IsEmergencyMode()`, `store.Connect()`, the `store.GetPolicies` payload,
its decoded form (`none` models a JSON decode failure), and the result of
`LoadPoliciesFromRPCBackup` (modelled from the spec: the locally cached
backup read used in emergency mode; its body is absent from src/). -/
structure RPCEnv where
  emergencyMode : Bool
  connectOK : Bool
  rpcPolicies : String
  parsed : Option (List DBPolicy)
  backup : Except String (List (String × DBPolicy))

/-- `LoadPoliciesFromRPC` (policy loader): in emergency mode read the cached
backup; otherwise require a store connection and a non-empty policy payload,
decode it, and merge last-wins. -/
def LoadPoliciesFromRPC (env : RPCEnv) (allowExplicit : Bool) :
    Except String (List (String × DBPolicy)) :=
  if env.emergencyMode then env.backup
  else if !env.connectOK then
    Except.error "Policies backup: Failed connecting to database"
  else if env.rpcPolicies = "" then
    Except.error "failed to fetch policies from RPC store; connection may be down"
  else
    match env.parsed with
    | none => Except.error "Failed decode"
    | some l => Except.ok (parsePoliciesFromRPCList allowExplicit l)

/-- The event trace of a run of the retry loop in which every ordinary
attempt fails: attempts `i, i+1, ...` each separated by a backoff sleep. -/
def failTrace (interval : Nat) : Nat → Nat → List SyncEvent
  | _, 0 => []
  | i, 1 => [SyncEvent.attempt i false]
  | i, r + 2 =>
    SyncEvent.attempt i false :: SyncEvent.sleep interval :: failTrace interval (i + 1) (r + 1)

/-! ## Retry-loop lemmas -/

/-- If every failing sync call leaves the state unchanged, a run of the retry
loop that fails overall leaves the state unchanged. -/
theorem syncLoop_error_state (u : Bool) (itv : Nat)
    (F : Bool → Nat → GwState → Except String Nat × GwState)
    (hF : ∀ em j stx e st', F em j stx = (Except.error e, st') → st' = stx) :
    ∀ (rem i : Nat) (st st' : GwState) (e : String) (evs : List SyncEvent),
    syncLoop u itv F i rem st = (Except.error e, st', evs) → st' = st := by
  intro rem
  induction rem with
  | zero =>
    intro i st st' e evs h
    simp only [syncLoop, Prod.mk.injEq] at h
    exact h.2.1.symm
  | succ rem ih =>
    intro i st st' e evs h
    simp only [syncLoop] at h
    split at h
    next c st1 heq => simp at h
    next e1 st1 heq =>
      have hst1 : st1 = st := hF false i st e1 st1 heq
      split at h
      · split at h
        · split at h
          next c st2 heq2 => simp at h
          next e2 st2 heq2 =>
            have hst2 : st2 = st1 := hF true (i + 1) st1 e2 st2 heq2
            simp only [Prod.mk.injEq] at h
            exact h.2.1.symm.trans (hst2.trans hst1)
        · simp only [Prod.mk.injEq] at h
          exact h.2.1.symm.trans hst1
      · simp only [Prod.mk.injEq] at h
        obtain ⟨hres, hst, hevs⟩ := h
        have hrec : syncLoop u itv F (i + 1) rem st1 =
            (Except.error e, st', (syncLoop u itv F (i + 1) rem st1).2.2) := by
          rw [← hres, ← hst]
        exact (ih (i + 1) st1 st' e _ hrec).trans hst1

/-- A successful run of the retry loop returns the state and count produced
by the one successful sync call; any property each successful call
establishes therefore holds of the result. -/
theorem syncLoop_ok_state (u : Bool) (itv : Nat)
    (F : Bool → Nat → GwState → Except String Nat × GwState)
    (Q : Nat → GwState → Prop)
    (hF : ∀ em j stx c st', F em j stx = (Except.ok c, st') → Q c st') :
    ∀ (rem i : Nat) (st st' : GwState) (c : Nat) (evs : List SyncEvent),
    syncLoop u itv F i rem st = (Except.ok c, st', evs) → Q c st' := by
  intro rem
  induction rem with
  | zero =>
    intro i st st' c evs h
    simp [syncLoop] at h
  | succ rem ih =>
    intro i st st' c evs h
    simp only [syncLoop] at h
    split at h
    next c1 st1 heq =>
      simp only [Prod.mk.injEq, Except.ok.injEq] at h
      obtain ⟨hc, hst, -⟩ := h
      rw [hc, hst] at heq
      exact hF false i st c st' heq
    next e1 st1 heq =>
      split at h
      · split at h
        · split at h
          next c2 st2 heq2 =>
            simp only [Prod.mk.injEq, Except.ok.injEq] at h
            obtain ⟨hc, hst, -⟩ := h
            rw [hc, hst] at heq2
            exact hF true (i + 1) st1 c st' heq2
          next e2 st2 heq2 => simp at h
        · simp at h
      · simp only [Prod.mk.injEq] at h
        obtain ⟨hres, hst, hevs⟩ := h
        have hrec : syncLoop u itv F (i + 1) rem st1 =
            (Except.ok c, st', (syncLoop u itv F (i + 1) rem st1).2.2) := by
          rw [← hres, ← hst]
        exact ih (i + 1) st1 st' c _ hrec

/-- A failing `syncPolicies` attempt leaves the gateway state (in particular
`gw.policiesByID`) unchanged. -/
theorem syncPolicies_error (fetched : Except String (List (String × DBPolicy)))
    (st st' : GwState) (e : String)
    (h : syncPolicies fetched st = (Except.error e, st')) : st' = st := by
  cases fetched with
  | error e1 =>
    simp only [syncPolicies, Prod.mk.injEq] at h
    exact h.2.symm
  | ok pols => simp [syncPolicies] at h

/-- A successful `syncAPISpecs` call stores exactly `c` specs in
`gw.apiSpecs` when it reports count `c`. -/
theorem syncAPISpecsCall_ok (conf : Config) (env : ReloadEnv) (em : Bool) (i : Nat)
    (st : GwState) (c : Nat) (st' : GwState)
    (h : syncAPISpecsCall conf env em i st = (Except.ok c, st')) :
    st'.apiSpecs.length = c := by
  unfold syncAPISpecsCall at h
  cases hfetch : env.apiFetch em i with
  | error e =>
    rw [hfetch] at h
    simp [syncAPISpecs] at h
  | ok s =>
    rw [hfetch] at h
    simp only [syncAPISpecs, Prod.mk.injEq, Except.ok.injEq] at h
    obtain ⟨hc, hst⟩ := h
    rw [← hst]
    exact hc

/-- C6: if the policy sync returns an error (every attempt failed), the
policy registry retains its previous value and the reload returns without
rebuilding the API snapshot: the whole gateway state is unchanged and the
only reload event is the policy-sync failure, so serving continues with the
last snapshot. -/
theorem doReload_policySyncFailure_preserves (conf : Config) (env : ReloadEnv) (st : GwState)
    (e : String) (st1 : GwState) (evs : List SyncEvent)
    (h : syncResourcesWithReload "policies" conf (syncPoliciesCall env) st =
      (Except.error e, st1, evs)) :
    DoReload conf env st = (st, [ReloadEvent.policySyncFailed]) := by
  have hguard : ¬(("policies" : String) ≠ "apis" ∧ ("policies" : String) ≠ "policies") := by
    decide
  have hst1 : st1 = st := by
    rw [syncResourcesWithReload, if_neg hguard] at h
    exact syncLoop_error_state conf.useRPC conf.interval (syncPoliciesCall env)
      (fun em j stx e' st'' hc => syncPolicies_error (env.polFetch em j) stx st'' e' hc)
      (conf.retryAttempts + 1) 1 st st1 e evs h
  simp only [DoReload, h]
  simp [isErr, hst1]

def conf0 : Config :=
  { retryAttempts := 0, interval := 0, useRPC := false, forceAuthProvider := false,
    authProvider := "", forceSessionProvider := false, sessionProvider := "", secret := "s" }

def st0 : GwState :=
  { apiSpecs := [], apisByID := [], policiesByID := [], performedSuccessfulReload := false }

def specW : APISpec :=
  { apiID := "api-1", name := "api one", authProvider := "", sessionProvider := "" }

def envW6 : ReloadEnv :=
  { polFetch := fun _ _ => Except.error "dashboard down",
    apiFetch := fun _ _ => Except.ok [], validate := fun _ => none }

def stW6 : GwState :=
  { apiSpecs := [specW], apisByID := [("api-1", specW)],
    policiesByID := [("pol-1", dupA)], performedSuccessfulReload := false }

/-- Witness for C6: with a policy source that always fails, a reload leaves
the registries untouched and reports only the policy-sync failure. -/
theorem doReload_policySyncFailure_preserves_wit :
    DoReload conf0 envW6 stW6 = (stW6, [ReloadEvent.policySyncFailed]) :=
  doReload_policySyncFailure_preserves conf0 envW6 stW6
    "syncing failed: dashboard down" stW6 [SyncEvent.attempt 1 false] rfl

/-- C3: if the policy sync succeeds and the API sync succeeds but returns
zero API definitions while the current registry is also empty, the reload is
abandoned: the state is left as the syncs produced it, the global apps are
not rebuilt and the mux is not reinstalled (no `rebuiltGlobalApps` event). -/
theorem doReload_abandons_when_both_empty (conf : Config) (env : ReloadEnv) (st : GwState)
    (c1 : Nat) (st1 st2 : GwState) (evs1 evs2 : List SyncEvent)
    (hp : syncResourcesWithReload "policies" conf (syncPoliciesCall env) st =
      (Except.ok c1, st1, evs1))
    (ha : syncResourcesWithReload "apis" conf (syncAPISpecsCall conf env) st1 =
      (Except.ok 0, st2, evs2))
    (hz : st2.apisByID = []) :
    DoReload conf env st =
      ({ st2 with performedSuccessfulReload := true }, [ReloadEvent.abandonedNoAPIs]) ∧
    (DoReload conf env st).1.apisByID = st2.apisByID ∧
    ReloadEvent.rebuiltGlobalApps ∉ (DoReload conf env st).2 := by
  have hmain : DoReload conf env st =
      ({ st2 with performedSuccessfulReload := true }, [ReloadEvent.abandonedNoAPIs]) := by
    simp only [DoReload, hp]
    simp only [isErr, exceptCount, ha]
    simp [hz]
  refine ⟨hmain, ?_, ?_⟩
  · rw [hmain, hz]
  · rw [hmain]
    simp

def envOkEmpty : ReloadEnv :=
  { polFetch := fun _ _ => Except.ok [],
    apiFetch := fun _ _ => Except.ok [], validate := fun _ => none }

/-- Witness for C3: an empty registry plus a zero-API sync yields an
abandoned reload. -/
theorem doReload_abandons_when_both_empty_wit :
    DoReload conf0 envOkEmpty st0 =
      ({ st0 with performedSuccessfulReload := true }, [ReloadEvent.abandonedNoAPIs]) ∧
    (DoReload conf0 envOkEmpty st0).1.apisByID = st0.apisByID ∧
    ReloadEvent.rebuiltGlobalApps ∉ (DoReload conf0 envOkEmpty st0).2 :=
  doReload_abandons_when_both_empty conf0 envOkEmpty st0 0 st0 st0
    [SyncEvent.attempt 1 false] [SyncEvent.attempt 1 false] rfl rfl rfl

def stC1 : GwState :=
  { apiSpecs := [specW], apisByID := [("api-1", specW)],
    policiesByID := [], performedSuccessfulReload := false }

def stC1' : GwState :=
  { apiSpecs := [], apisByID := [("api-1", specW)],
    policiesByID := [], performedSuccessfulReload := false }

/-- C1 (counterexample): a reload in which the API sync succeeds with zero
API definitions while the registry holds one API does NOT leave the registry
unchanged: the reload proceeds and the registry ends up empty. -/
theorem doReload_zeroAPIs_nonEmpty_cex :
    envOkEmpty.apiFetch false 1 = Except.ok [] ∧
    stC1.apisByID = [("api-1", specW)] ∧
    (DoReload conf0 envOkEmpty stC1).1.apisByID = [] ∧
    (DoReload conf0 envOkEmpty stC1).1.apisByID ≠ stC1.apisByID := by
  have hrun : (DoReload conf0 envOkEmpty stC1).1.apisByID = [] := rfl
  refine ⟨rfl, rfl, hrun, ?_⟩
  rw [hrun]
  decide

/-- C1 (amended): for every reload in which the API sync succeeds and returns
zero API definitions while the currently loaded API registry is non-empty,
the reload does not leave the registry unchanged: it proceeds (the
non-empty-to-empty transition is honored), rebuilds the global apps from the
empty loaded set, and leaves the API registry empty. -/
theorem doReload_zeroAPIs_nonEmpty_clears (conf : Config) (env : ReloadEnv) (st : GwState)
    (c1 : Nat) (st1 st2 : GwState) (evs1 evs2 : List SyncEvent)
    (hp : syncResourcesWithReload "policies" conf (syncPoliciesCall env) st =
      (Except.ok c1, st1, evs1))
    (ha : syncResourcesWithReload "apis" conf (syncAPISpecsCall conf env) st1 =
      (Except.ok 0, st2, evs2))
    (hne : st2.apisByID ≠ []) :
    DoReload conf env st =
      ({ loadGlobalApps st2 with performedSuccessfulReload := true },
       [ReloadEvent.rebuiltGlobalApps]) ∧
    (DoReload conf env st).1.apisByID = [] := by
  have hguard : ¬(("apis" : String) ≠ "apis" ∧ ("apis" : String) ≠ "policies") := by decide
  have hlen : st2.apiSpecs.length = 0 := by
    rw [syncResourcesWithReload, if_neg hguard] at ha
    exact syncLoop_ok_state conf.useRPC conf.interval (syncAPISpecsCall conf env)
      (fun c s => s.apiSpecs.length = c)
      (fun em j stx c st' hc => syncAPISpecsCall_ok conf env em j stx c st' hc)
      (conf.retryAttempts + 1) 1 st1 st2 0 evs2 ha
  have hspecs : st2.apiSpecs = [] := List.length_eq_zero.mp hlen
  have hmain : DoReload conf env st =
      ({ loadGlobalApps st2 with performedSuccessfulReload := true },
       [ReloadEvent.rebuiltGlobalApps]) := by
    simp only [DoReload, hp]
    simp only [isErr, exceptCount, ha]
    simp [hne]
  refine ⟨hmain, ?_⟩
  rw [hmain]
  show (loadGlobalApps st2).apisByID = []
  show st2.apiSpecs.map (fun s => (s.apiID, s)) = []
  rw [hspecs]
  rfl

/-- Witness for C1 (amended): a registry with one API and a zero-API sync;
the reload rebuilds and the registry comes out empty. -/
theorem doReload_zeroAPIs_nonEmpty_clears_wit :
    DoReload conf0 envOkEmpty stC1 =
      ({ loadGlobalApps stC1' with performedSuccessfulReload := true },
       [ReloadEvent.rebuiltGlobalApps]) ∧
    (DoReload conf0 envOkEmpty stC1).1.apisByID = [] :=
  doReload_zeroAPIs_nonEmpty_clears conf0 envOkEmpty stC1 0 stC1 stC1'
    [SyncEvent.attempt 1 false] [SyncEvent.attempt 1 false] rfl rfl (by decide)

/-- C5: during an API sync whose fetch completed, every fetched definition
that fails validation is excluded from the loaded set and a skip message is
logged for it; every valid definition is kept; the sync completes
successfully, reporting the size of the remaining valid set. -/
theorem syncAPISpecs_invalid_excluded (conf : Config) (validate : APISpec → Option String)
    (s : List APISpec) (st : GwState) :
    (syncAPISpecs conf validate (Except.ok s) st).1 =
      Except.ok ((applyProviderOverrides conf s).filter (specValid validate)).length ∧
    (syncAPISpecs conf validate (Except.ok s) st).2.1.apiSpecs =
      (applyProviderOverrides conf s).filter (specValid validate) ∧
    (∀ v ∈ applyProviderOverrides conf s, specValid validate v = false →
      v ∉ (syncAPISpecs conf validate (Except.ok s) st).2.1.apiSpecs ∧
      ("Skipping loading spec because it failed validation: " ++ v.name) ∈
        (syncAPISpecs conf validate (Except.ok s) st).2.2) ∧
    (∀ v ∈ applyProviderOverrides conf s, specValid validate v = true →
      v ∈ (syncAPISpecs conf validate (Except.ok s) st).2.1.apiSpecs) := by
  refine ⟨rfl, rfl, ?_, ?_⟩
  · intro v hv hbad
    constructor
    · intro hmem
      have hmem' : v ∈ (applyProviderOverrides conf s).filter (specValid validate) := hmem
      have := List.of_mem_filter hmem'
      rw [hbad] at this
      cases this
    · have hmemf : v ∈ (applyProviderOverrides conf s).filter
          (fun v => !(specValid validate v)) :=
        List.mem_filter_of_mem hv (by rw [hbad]; rfl)
      exact List.mem_map_of_mem _ hmemf
  · intro v hv hgood
    exact List.mem_filter_of_mem hv hgood

def specGood : APISpec :=
  { apiID := "ok-api", name := "good", authProvider := "", sessionProvider := "" }

def specBad : APISpec :=
  { apiID := "bad-api", name := "bad", authProvider := "", sessionProvider := "" }

def validateC5 : APISpec → Option String :=
  fun v => if v.apiID = "bad-api" then some "unreachable regex" else none

/-- Witness for C5: of two fetched definitions, the invalid one is excluded
and logged, the valid one is kept, and the sync reports success with count 1. -/
theorem syncAPISpecs_invalid_excluded_wit :
    specBad ∉ (syncAPISpecs conf0 validateC5 (Except.ok [specGood, specBad]) st0).2.1.apiSpecs ∧
    ("Skipping loading spec because it failed validation: " ++ "bad") ∈
      (syncAPISpecs conf0 validateC5 (Except.ok [specGood, specBad]) st0).2.2 ∧
    specGood ∈ (syncAPISpecs conf0 validateC5 (Except.ok [specGood, specBad]) st0).2.1.apiSpecs ∧
    (syncAPISpecs conf0 validateC5 (Except.ok [specGood, specBad]) st0).1 = Except.ok 1 := by
  have h := syncAPISpecs_invalid_excluded conf0 validateC5 [specGood, specBad] st0
  have hb := h.2.2.1 specBad (by decide) (by decide)
  refine ⟨hb.1, hb.2, h.2.2.2 specGood (by decide) (by decide), ?_⟩
  rw [h.1]
  rfl

/-- The event trace of the retry loop when every ordinary attempt fails and
the gateway is slaved to RPC: all attempts with backoff sleeps between them,
then emergency mode, then exactly one emergency attempt. -/
theorem syncLoop_allFail (itv : Nat)
    (F : Bool → Nat → GwState → Except String Nat × GwState)
    (hfail : ∀ j stx, isErr (F false j stx).1 = true) :
    ∀ (rem i : Nat) (st : GwState), 1 ≤ rem →
    (syncLoop true itv F i rem st).2.2 =
      failTrace itv i rem ++
        [SyncEvent.enableEmergencyMode, SyncEvent.attempt (i + rem) true] := by
  intro rem
  induction rem with
  | zero =>
    intro i st hrem
    omega
  | succ rem ih =>
    intro i st hrem
    rcases hc : F false i st with ⟨res, st1⟩
    have herr := hfail i st
    rw [hc] at herr
    cases res with
    | ok c => simp [isErr] at herr
    | error e1 =>
      cases rem with
      | zero =>
        rcases hc2 : F true (i + 1) st1 with ⟨res2, st2⟩
        cases res2 with
        | ok c2 =>
          simp only [syncLoop, hc, hc2]
          rfl
        | error e2 =>
          simp only [syncLoop, hc, hc2]
          rfl
      | succ r =>
        have hrec := ih (i + 1) st1 (by omega)
        simp only [syncLoop, hc]
        rw [if_neg (by omega)]
        show SyncEvent.attempt i false :: SyncEvent.sleep itv ::
            (syncLoop true itv F (i + 1) (r + 1) st1).2.2 = _
        rw [hrec]
        show SyncEvent.attempt i false :: SyncEvent.sleep itv ::
            (failTrace itv (i + 1) (r + 1) ++
              [SyncEvent.enableEmergencyMode, SyncEvent.attempt (i + 1 + (r + 1)) true]) =
          (SyncEvent.attempt i false :: SyncEvent.sleep itv :: failTrace itv (i + 1) (r + 1)) ++
            [SyncEvent.enableEmergencyMode, SyncEvent.attempt (i + (r + 1 + 1)) true]
        have harith : i + 1 + (r + 1) = i + (r + 1 + 1) := by omega
        rw [harith]
        simp

/-- C4: for every resource sync (`"apis"` or `"policies"`) in which every
ordinary attempt fails and the gateway is slaved to a remote RPC source, the
sync is tried the configured `RetryAttempts + 1` times with the configured
backoff interval slept between attempts, emergency mode is then enabled, and
the sync is retried exactly once more; for the RPC policy source that extra
call in emergency mode reads the cached backup. -/
theorem syncResources_retry_emergency (conf : Config) (resource : String)
    (F : Bool → Nat → GwState → Except String Nat × GwState) (st : GwState)
    (hres : resource = "apis" ∨ resource = "policies")
    (hrpc : conf.useRPC = true)
    (hfail : ∀ j stx, isErr (F false j stx).1 = true) :
    (syncResourcesWithReload resource conf F st).2.2 =
      failTrace conf.interval 1 (conf.retryAttempts + 1) ++
        [SyncEvent.enableEmergencyMode,
         SyncEvent.attempt (conf.retryAttempts + 2) true] ∧
    (∀ (envr : RPCEnv) (ae : Bool), envr.emergencyMode = true →
      LoadPoliciesFromRPC envr ae = envr.backup) := by
  constructor
  · rw [syncResourcesWithReload,
      if_neg (by rcases hres with h | h <;> simp [h])]
    rw [hrpc]
    have := syncLoop_allFail conf.interval F hfail (conf.retryAttempts + 1) 1 st (by omega)
    rw [this]
    have harith : 1 + (conf.retryAttempts + 1) = conf.retryAttempts + 2 := by omega
    rw [harith]
  · intro envr ae h
    rw [LoadPoliciesFromRPC, if_pos h]

def confC4 : Config :=
  { retryAttempts := 1, interval := 7, useRPC := true, forceAuthProvider := false,
    authProvider := "", forceSessionProvider := false, sessionProvider := "", secret := "s" }

def envC4 : ReloadEnv :=
  { polFetch := fun em _ =>
      match em with
      | true => Except.ok []
      | false => Except.error "rpc down",
    apiFetch := fun _ _ => Except.ok [], validate := fun _ => none }

def rpcEnvC4 : RPCEnv :=
  { emergencyMode := true, connectOK := false, rpcPolicies := "", parsed := none,
    backup := Except.ok [("pol-1", dupA)] }

/-- Witness for C4: with one configured retry and an always-failing live
policy source, the trace is attempt 1, a 7-second sleep, attempt 2, emergency
mode, then exactly one emergency attempt; and an emergency-mode RPC policy
load reads the cached backup. -/
theorem syncResources_retry_emergency_wit :
    (syncResourcesWithReload "policies" confC4 (syncPoliciesCall envC4) st0).2.2 =
      failTrace 7 1 2 ++
        [SyncEvent.enableEmergencyMode, SyncEvent.attempt 3 true] ∧
    LoadPoliciesFromRPC rpcEnvC4 true = rpcEnvC4.backup := by
  have h := syncResources_retry_emergency confC4 "policies" (syncPoliciesCall envC4) st0
    (Or.inr rfl) rfl (fun j stx => rfl)
  exact ⟨h.1, h.2 rpcEnvC4 true rfl⟩

/-! ## Dashboard heartbeat (`dashboard_register.go`) -/

/-- The outcome of one ping to the dashboard's `/register/ping` endpoint:
a transport failure (`client.Do` error) or an HTTP status code. -/
inductive PingResult where
  | netError
  | status (code : Nat)
deriving DecidableEq, Repr

/-- Observable events of the heartbeat loop: sending ping number `i`,
re-registering the node, logging a heartbeat warning, and sleeping. -/
inductive BeatEvent where
  | ping (i : Nat)
  | register
  | warn
  | sleep (seconds : Nat)
deriving DecidableEq, Repr

/-- `sendHeartBeat` (`dashboard_register.go`): a transport error yields the
"Heartbeat is failing" error; a 403 response triggers `DashService.Register`
(whose own outcome is the given `registerErr`); any other non-200 yields the
non-200 error; a 200 decodes the nonce and succeeds. Returns the events of
the call and whether an error was returned. -/
def sendHeartBeat (res : PingResult) (registerErr : Bool) : List BeatEvent × Bool :=
  match res with
  | PingResult.netError => ([], true)
  | PingResult.status c =>
    if c = 403 then ([BeatEvent.register], registerErr)
    else if c ≠ 200 then ([], true)
    else ([], false)

/-- One iteration of the `StartBeating` loop: send the heartbeat, log a
warning when it returned an error, then sleep 2 seconds. -/
def beatIter (responses : Nat → PingResult) (registerErr : Nat → Bool) (i : Nat) :
    List BeatEvent :=
  BeatEvent.ping i ::
    ((sendHeartBeat (responses i) (registerErr i)).1 ++
      (if (sendHeartBeat (responses i) (registerErr i)).2 then [BeatEvent.warn] else []) ++
      [BeatEvent.sleep 2])

/-- `StartBeating` (`dashboard_register.go`): the heartbeat loop, iterated
over an abstract stream of ping outcomes. `n` is the number of iterations
performed before the context is cancelled or the stop sentinel is observed;
each iteration sends one ping, warns on error, and sleeps 2 seconds. -/
def StartBeating (responses : Nat → PingResult) (registerErr : Nat → Bool) :
    Nat → Nat → List BeatEvent
  | _, 0 => []
  | i, n + 1 =>
    BeatEvent.ping i ::
      ((sendHeartBeat (responses i) (registerErr i)).1 ++
        (if (sendHeartBeat (responses i) (registerErr i)).2 then [BeatEvent.warn] else []) ++
        (BeatEvent.sleep 2 :: StartBeating responses registerErr (i + 1) n))

/-- The loop is its first iteration followed by the rest. -/
theorem startBeating_decomp (responses : Nat → PingResult) (registerErr : Nat → Bool)
    (i n : Nat) :
    StartBeating responses registerErr i (n + 1) =
      beatIter responses registerErr i ++ StartBeating responses registerErr (i + 1) n := by
  simp only [StartBeating, beatIter, List.cons_append, List.append_assoc,
    List.singleton_append, List.nil_append]

/-- A 403 ping inside the loop's range is immediately followed by a
re-registration. -/
theorem startBeating_403_mem (responses : Nat → PingResult) (registerErr : Nat → Bool)
    (i0 : Nat) (h403 : responses i0 = PingResult.status 403) :
    ∀ (n i : Nat), i ≤ i0 → i0 < i + n →
    ∃ s t, s ++ [BeatEvent.ping i0, BeatEvent.register] ++ t =
      StartBeating responses registerErr i n := by
  intro n
  induction n with
  | zero =>
    intro i hle hlt
    omega
  | succ n ih =>
    intro i hle hlt
    rcases Nat.eq_or_lt_of_le hle with heq | hlt'
    · subst heq
      refine ⟨[], (if registerErr i then [BeatEvent.warn] else []) ++
        (BeatEvent.sleep 2 :: StartBeating responses registerErr (i + 1) n), ?_⟩
      simp only [StartBeating, h403, sendHeartBeat, if_pos rfl]
      simp
    · obtain ⟨s, t, hst⟩ := ih (i + 1) (by omega) (by omega)
      refine ⟨beatIter responses registerErr i ++ s, t, ?_⟩
      rw [startBeating_decomp, ← hst]
      simp [List.append_assoc]

/-- C9: over any run of the heartbeat loop, each iteration sends one ping and
ends with a 2-second sleep (so pings are sent every 2 seconds), the trace is
the concatenation of these iterations, and whenever a ping in range receives
HTTP 403 the loop re-registers the node immediately after that ping. -/
theorem startBeating_ping_403_reregisters (responses : Nat → PingResult)
    (registerErr : Nat → Bool) (n i0 : Nat)
    (h1 : i0 < n) (h2 : responses i0 = PingResult.status 403) :
    (∃ s t, s ++ [BeatEvent.ping i0, BeatEvent.register] ++ t =
      StartBeating responses registerErr 0 n) ∧
    (∀ i m, StartBeating responses registerErr i (m + 1) =
      beatIter responses registerErr i ++ StartBeating responses registerErr (i + 1) m) ∧
    (∀ j, ∃ mid, beatIter responses registerErr j =
      BeatEvent.ping j :: (mid ++ [BeatEvent.sleep 2])) := by
  refine ⟨startBeating_403_mem responses registerErr i0 h2 n 0 (by omega) (by omega),
    fun i m => startBeating_decomp responses registerErr i m, ?_⟩
  intro j
  exact ⟨(sendHeartBeat (responses j) (registerErr j)).1 ++
    (if (sendHeartBeat (responses j) (registerErr j)).2 then [BeatEvent.warn] else []),
    by simp [beatIter, List.append_assoc]⟩

def respC9 : Nat → PingResult :=
  fun i => if i = 1 then PingResult.status 403 else PingResult.status 200

def regC9 : Nat → Bool := fun _ => false

/-- Witness for C9: in a three-iteration run whose second ping receives 403,
the trace contains that ping immediately followed by a re-registration, and
the first iteration pings then sleeps 2 seconds. -/
theorem startBeating_ping_403_reregisters_wit :
    (∃ s t, s ++ [BeatEvent.ping 1, BeatEvent.register] ++ t =
      StartBeating respC9 regC9 0 3) ∧
    (∃ mid, beatIter respC9 regC9 0 =
      BeatEvent.ping 0 :: (mid ++ [BeatEvent.sleep 2])) := by
  have h := startBeating_ping_403_reregisters respC9 regC9 3 1 (by decide) (by decide)
  exact ⟨h.1, h.2.2 0⟩

end Tyk
